import Mathlib

/-!
Verification of the fishtest SPSA core against its specification.

The definitions below are shallow embeddings of the Python source:
* `server/fishtest/spsa_handler.py` — signature codec, online μ2 estimator,
  per-parameter optimizer updates, and the request/report coordinator;
* `server/fishtest/views.py` (`parse_spsa_params`) — static parameter parsing;
* `simul/bias_sf_sgd.py` — the schedule-free SGD batch/sequence simulation.

Exact-arithmetic conventions: Python floats are modelled by `ℚ` where the
source uses only field operations, and by `ℝ` where the source uses `sqrt`
or real exponentiation (`**` with a float exponent, modelled by `Real.rpow`;
`** 0.5` on the non-negative values arising here is modelled by `Real.sqrt`).
Numeric literals such as `1e-12` are written `1 / 10 ^ 12`.
-/

/-! ### Signature codec (`_pack_flips`, `_unpack_flips`, `zlib.crc32`) -/

/-- Number of zero padding bits `np.packbits` appends to reach a whole byte. -/
def padLen (n : Nat) : Nat := (8 - n % 8) % 8

/-- Embeds `_pack_flips`: a list of ±1 becomes the bit sequence (1 ↔ +1, 0 ↔ −1),
most-significant-bit first, padded with zero bits to a byte boundary;
the empty list packs to the empty byte string. Modelled at bit level. -/
def _pack_flips (flips : List Int) : List Bool :=
  if flips = [] then []
  else (flips.map (fun f => f == 1)) ++ List.replicate (padLen flips.length) false

/-- Embeds `_unpack_flips`: the inverse, mapping each bit back to ±1 and truncating
to `length` (the source unpacks all bits then takes `flips[:length]`). -/
def _unpack_flips (packed : List Bool) (length : Nat) : List Int :=
  if packed = [] then []
  else ((packed.map (fun b => if b then (1 : Int) else -1)).take length)

/-- Group a bit list (MSB first) into bytes, as `np.packbits(...).tobytes()`. -/
def bytesOfBits (bits : List Bool) : List Nat :=
  if h : bits = [] then []
  else
    ((bits.take 8).foldl (fun acc b => 2 * acc + (if b then 1 else 0)) 0) ::
      bytesOfBits (bits.drop 8)
  termination_by bits.length
  decreasing_by
    simp only [List.length_drop]
    have := List.length_pos.mpr h
    omega

/-- One reflected CRC-32 bit step (polynomial `0xEDB88320`). -/
def crc32Bit (c : Nat) : Nat :=
  if c % 2 = 1 then Nat.xor (c / 2) 0xEDB88320 else c / 2

/-- Fold one byte into the CRC accumulator. -/
def crc32Byte (c b : Nat) : Nat :=
  (crc32Bit ∘ crc32Bit ∘ crc32Bit ∘ crc32Bit ∘
   crc32Bit ∘ crc32Bit ∘ crc32Bit ∘ crc32Bit) (Nat.xor c b)

/-- Embeds `zlib.crc32` over a byte string (init and final xor `0xFFFFFFFF`). -/
def crc32 (bs : List Nat) : Nat :=
  Nat.xor (bs.foldl crc32Byte 0xFFFFFFFF) 0xFFFFFFFF

/-! ### Online μ2 estimator (`_mu2_hat`, `_mu2_update`)

Polymorphic over a linear ordered field so the same definition serves the
`ℚ`-valued estimator theorems and the `ℝ`-valued coordinator. -/

/-- The four μ2 accumulators plus the configured prior, as stored on `spsa`. -/
structure Mu2Acc (F : Type) where
  mu2_reports : F
  mu2_sum_N : F
  mu2_sum_s : F
  mu2_sum_s2_over_N : F
  mu2_init : F

/-- Embeds `_mu2_hat`: block-averaged μ2 from per-report aggregates, falling back to
`mu2_init` when no reports (or no games) have been folded in, and clamped to
`[1e-12, 4.0]`. -/
def _mu2_hat {F : Type} [LinearOrderedField F] (m : Mu2Acc F) : F :=
  if m.mu2_reports ≤ 0 then m.mu2_init
  else if m.mu2_sum_N ≤ 0 then m.mu2_init
  else
    let mu := m.mu2_sum_s / m.mu2_sum_N
    let e_s2_over_N := m.mu2_sum_s2_over_N / m.mu2_reports
    let e_N := m.mu2_sum_N / m.mu2_reports
    let sigma2 := e_s2_over_N - (mu * mu) * e_N
    let sigma2 := if sigma2 < 0 then 0 else sigma2
    let mu2 := mu * mu + sigma2
    if mu2 < 1 / 10 ^ 12 then 1 / 10 ^ 12
    else if mu2 > 4 then 4
    else mu2

/-- Embeds `_mu2_update`: fold one report `(N, s)` into the accumulators. -/
def _mu2_update {F : Type} [LinearOrderedField F] (m : Mu2Acc F) (N : Nat) (s : F) :
    Mu2Acc F :=
  { m with
    mu2_reports := m.mu2_reports + 1
    mu2_sum_N := m.mu2_sum_N + N
    mu2_sum_s := m.mu2_sum_s + s
    mu2_sum_s2_over_N := m.mu2_sum_s2_over_N + s * s / N }

/-! ### Run-level optimizer state and shared schedule-free helpers -/

/-- Per-parameter state. `pmin`/`pmax` model the source's `min`/`max` keys
(renamed to avoid the Lean builtins); `a` is the Classic gain numerator.
`hasZ` models the source's duck-typed variant choice (`"z" in param`):
`false` selects the Classic update, `true` the schedule-free Adam update. -/
structure SPSAParam where
  theta : ℝ
  z : ℝ
  v : ℝ
  pmin : ℝ
  pmax : ℝ
  c : ℝ
  a : ℝ
  hasZ : Bool

/-- Run-level `spsa` dict. `gamma`, `alpha`, `A` are `Option`s modelling the
source's `"gamma" in spsa` / `"alpha" in spsa and "A" in spsa` key tests. -/
structure SpsaState where
  iter : Nat
  sf_weight_sum : ℝ
  sf_lr : ℝ
  sf_beta1 : ℝ
  sf_beta2 : ℝ
  sf_eps : ℝ
  mu2 : Mu2Acc ℝ
  gamma : Option ℝ
  alpha : Option ℝ
  A : Option ℝ
  params : List SPSAParam

/-- Embeds `_sf_weighting`: advance the schedule-free mass accumulator, returning the
new state together with `(weight_sum_prev, weight_sum_curr, a_k)`. -/
noncomputable def _sf_weighting (spsa : SpsaState) (N : Nat) (lr : ℝ) :
    SpsaState × ℝ × ℝ × ℝ :=
  let report_weight := lr * N
  let weight_sum_prev := spsa.sf_weight_sum
  let weight_sum_curr := weight_sum_prev + report_weight
  let a_k := if weight_sum_curr > 0 then report_weight / weight_sum_curr else 1
  ({ spsa with sf_weight_sum := weight_sum_curr },
   weight_sum_prev, weight_sum_curr, a_k)

/-- Embeds `_reconstruct_x_prev_clamped`: recover the Polyak surrogate from the
exported `theta` and fast iterate `z`; `none` models the source's `None`
return when `beta1` is zero (falsy). The recovered value is clamped. -/
noncomputable def _reconstruct_x_prev_clamped (theta_prev z_prev beta1 pmin pmax : ℝ) :
    Option ℝ :=
  if beta1 = 0 then none
  else
    let x_prev := (theta_prev - (1 - beta1) * z_prev) / beta1
    some (if x_prev < pmin then pmin else if x_prev > pmax then pmax else x_prev)

/-- Embeds `_blend_theta_clamped`: export blend `(1-beta1)·z + beta1·x` (plain `z`
when `beta1 = 0`), clamped to `[pmin, pmax]`. -/
noncomputable def _blend_theta_clamped (z_new x_new beta1 pmin pmax : ℝ) : ℝ :=
  let t := if beta1 = 0 then z_new else (1 - beta1) * z_new + beta1 * x_new
  if t < pmin then pmin else if t > pmax then pmax else t

/-- Embeds `_history_show_val`: display `x_new` when `beta1 > 0`, else `theta_new`. -/
noncomputable def _history_show_val (beta1 x_new theta_new : ℝ) : ℝ :=
  if beta1 > 0 then x_new else theta_new

/-! ### Adam-specific helpers -/

/-- Embeds `_adam_update_v_and_denom`: closed-form EMA of the second moment over `N`
steps with constant mean squared signal, bias-corrected; returns
`(v_new, denom)` with `denom = sqrt(v_hat) + eps` (the source's `** 0.5`). -/
noncomputable def _adam_update_v_and_denom (v beta2 : ℝ) (N : Nat) (g_sq_mean : ℝ)
    (micro_steps : Nat) (eps : ℝ) : ℝ × ℝ :=
  if beta2 < 1 then
    let beta2_pow_N := beta2 ^ N
    let v_new := beta2_pow_N * v + (1 - beta2_pow_N) * g_sq_mean
    let bc_denom := 1 - beta2 ^ micro_steps
    let v_hat := if bc_denom > 1 / 10 ^ 16 then v_new / bc_denom else v_new
    (v_new, Real.sqrt v_hat + eps)
  else (v, Real.sqrt v + eps)

/-- The intra-block damping factor of `_adam_delta_total_step`: closed form
`(1 - beta2^(N/2)) / (N·(1 - sqrt beta2))` with a series fallback near
`beta2 = 1`, then clamped into `(0, 1]` (`1` above, `1e-6` when not
strictly positive). The source inlines this under the `N > 1 and
0 < beta2 < 1` guard; the guard stays in `_adam_delta_total_step`. -/
noncomputable def _adam_k (N : Nat) (beta2 : ℝ) : ℝ :=
  let sqrt_b2 := Real.sqrt beta2
  let k :=
    if |1 - sqrt_b2| > 1 / 10 ^ 12 then
      let num := 1 - beta2 ^ ((1 / 2 : ℝ) * N)
      let den := (N : ℝ) * (1 - sqrt_b2)
      if den ≠ 0 then num / den else 1
    else 1 - ((N : ℝ) - 1) * (1 / 4) * (1 - beta2)
  if 0 < k ∧ k ≤ 1 then k else if k > 1 then 1 else 1 / 10 ^ 6

/-- Embeds `_adam_delta_total_step`: directional step in phi normalized by `denom`,
with optional `k(N, beta2)` damping, mapped to theta-space by `c`. -/
noncomputable def _adam_delta_total_step (lr c result flip denom : ℝ) (N : Nat) (beta2 : ℝ) :
    ℝ :=
  let step_phi := lr * result * flip / denom
  let step_phi :=
    if 1 < N ∧ 0 < beta2 ∧ beta2 < 1 then step_phi * _adam_k N beta2
    else step_phi
  step_phi * c

/-- Embeds `_adam_x_new_clamped`: mass-weighted Polyak average for the Adam path
(no triangular surrogate), clamped. -/
noncomputable def _adam_x_new_clamped (a_k x_prev z_new pmin pmax : ℝ) : ℝ :=
  let x_new := (1 - a_k) * x_prev + a_k * z_new
  if x_new < pmin then pmin else if x_new > pmax then pmax else x_new

/-! ### Per-parameter updates -/

/-- Embeds `_classic_param_update`: the legacy SPSA update
`theta ← min(max(theta + R·c·result·flip, min), max)`. The `w_param`
fields `c`, `R`, `flip` are passed directly. Returns the updated parameter
and the display value. -/
noncomputable def _classic_param_update (p : SPSAParam) (c R : ℝ) (flip result : Int) :
    SPSAParam × ℝ :=
  let theta := min (max (p.theta + R * c * result * flip) p.pmin) p.pmax
  ({ p with theta := theta }, theta)

/-- Embeds `_schedule_free_adam_param_update`: fast-iterate step plus surrogate
blend. In the `beta1 ≠ 0` branch the source's `x_prev` is the `some` value
of `_reconstruct_x_prev_clamped` (never `none` there); `getD 0` supplies the
unreachable default. Returns the updated parameter and the display value. -/
noncomputable def _schedule_free_adam_param_update (p : SPSAParam) (c : ℝ) (flip result : Int)
    (N : Nat) (lr beta1 beta2 eps : ℝ) (micro_steps : Nat) (a_k g2_mean : ℝ) :
    SPSAParam × ℝ :=
  let z_prev := p.z
  let vd := _adam_update_v_and_denom p.v beta2 N g2_mean micro_steps eps
  let v_new := vd.1
  let denom := vd.2
  let delta_total_step := _adam_delta_total_step lr c result flip denom N beta2
  let z_new := z_prev + delta_total_step
  let xt :=
    if beta1 = 0 then
      (z_new, _blend_theta_clamped z_new z_new beta1 p.pmin p.pmax)
    else
      let x_prev :=
        (_reconstruct_x_prev_clamped p.theta z_prev beta1 p.pmin p.pmax).getD 0
      let x_new := _adam_x_new_clamped a_k x_prev z_new p.pmin p.pmax
      (x_new, _blend_theta_clamped z_new x_new beta1 p.pmin p.pmax)
  ({ p with z := z_new, theta := xt.2, v := v_new },
   _history_show_val beta1 xt.1 xt.2)

/-! ### Perturbation generator (`_generate_data`) and parameter parsing -/

/-- Embeds `_param_clip`: `min(max(theta + increment, min), max)`. -/
noncomputable def _param_clip (p : SPSAParam) (increment : ℝ) : ℝ :=
  min (max (p.theta + increment) p.pmin) p.pmax

/-- One entry of `_generate_data`'s `w_params` (the `name` key is dropped;
`b_params`, used only by the worker, carry no extra information). -/
structure WParam where
  value : ℝ
  R : ℝ
  c : ℝ
  flip : Int

/-- The perturbation magnitude of `_generate_data`:
`param["c"] / iter_local ** gamma` when the run carries a `gamma` key
(legacy schedule), else the parameter's fixed `c`. -/
noncomputable def genC (spsa : SpsaState) (p : SPSAParam) (iter_local : Nat) : ℝ :=
  match spsa.gamma with
  | some g => p.c / ((iter_local : ℝ) ^ g)
  | none => p.c

/-- The Classic gain of `_generate_data`:
`param["a"] / (A + iter_local) ** alpha / c ** 2` when both `alpha` and `A`
are present, else `0.0`. -/
noncomputable def genR (spsa : SpsaState) (p : SPSAParam) (c : ℝ)
    (iter_local : Nat) : ℝ :=
  match spsa.alpha, spsa.A with
  | some al, some A => p.a / ((A + (iter_local : ℝ)) ^ al) / c ^ 2
  | _, _ => 0

/-- Embeds `_generate_data` (the `w_params` list): per parameter, magnitude `c`,
gain `R` and perturbed value at `iter_local = iter + 1`. The only
non-determinism, the per-parameter flip draw, is passed in as `flips`
(the coordinator either draws it or restores it from the packed bits). -/
noncomputable def _generate_data (spsa : SpsaState) (iter : Nat)
    (flips : List Int) : List WParam :=
  (spsa.params.zip flips).map (fun pf =>
    let c := genC spsa pf.1 (iter + 1)
    let R := genR spsa pf.1 c (iter + 1)
    { value := _param_clip pf.1 (c * pf.2), R := R, c := c, flip := pf.2 })

/-- Embeds `parse_spsa_params` (views.py): the stored perturbation magnitude
`param["c"] = c_end * num_iter ** gamma`. -/
noncomputable def parse_c (c_end : ℝ) (num_iter : Nat) (gamma : ℝ) : ℝ :=
  c_end * ((num_iter : ℝ) ^ gamma)

/-- Embeds `parse_spsa_params` (views.py): the stored gain numerator
`param["a"] = (r_end * c_end ** 2) * (A + num_iter) ** alpha`. -/
noncomputable def parse_a (r_end c_end A : ℝ) (num_iter : Nat) (alpha : ℝ) : ℝ :=
  (r_end * c_end ^ 2) * ((A + (num_iter : ℝ)) ^ alpha)

/-! ### Coordinator (`SPSAHandler.__request_spsa_data`,
`SPSAHandler.__update_spsa_data`)

The coordinator runs under the per-run lock; each operation is modelled as a
pure function from the run state (the one task addressed by `task_id`, plus
the run's `spsa` dict) to the new run state and the returned value. -/

/-- Task-level ephemeral state `task["spsa_params"]`: the issuance counter
and the packed flip bytes. -/
structure TaskSpsaParams where
  iter : Nat
  packed_flips : List Nat

/-- The addressed task: its `active` flag and optional ephemeral state. -/
structure TaskState where
  active : Bool
  spsa_params : Option TaskSpsaParams

/-- The run as seen by the handler: the addressed task, the `spsa` dict and
`run["args"]["num_games"]`. -/
structure RunState where
  task : TaskState
  spsa : SpsaState
  num_games : Nat

/-- The payload returned by `__request_spsa_data` (the `b_params` mirror and
the `info` message carry no state and are omitted). -/
structure SpsaRequestResult where
  w_params : List WParam
  sig : Nat
  task_alive : Bool

/-- Embeds `__request_spsa_data`: inactive task → `task_alive = false`, no mutation;
active task → generate the perturbation at the current counter, store the
counter and packed flips on the task, return the data with its CRC-32. -/
noncomputable def request_spsa_data (st : RunState) (flips : List Int) :
    RunState × SpsaRequestResult :=
  if st.task.active = false then
    (st, { w_params := [], sig := 0, task_alive := false })
  else
    let w_params := _generate_data st.spsa st.spsa.iter flips
    let packed := bytesOfBits (_pack_flips (w_params.map (fun w => w.flip)))
    let st' :=
      { st with task :=
        { st.task with spsa_params := some ⟨st.spsa.iter, packed⟩ } }
    (st', { w_params := w_params, sig := crc32 packed, task_alive := true })

/-- Unpack a stored byte string back into bits (MSB first per byte). -/
def bitsOfBytes (bs : List Nat) : List Bool :=
  (bs.map (fun b => (List.range 8).map (fun i => b.testBit (7 - i)))).flatten

/-- The report payload `spsa_results` (missing `sig` defaults to `0`). -/
structure SpsaResults where
  wins : Nat
  losses : Nat
  num_games : Nat
  sig : Nat

/-- The exception the success path of `__update_spsa_data` raises: the call
`_add_to_history(...)` at its end refers to a module-level name that does not
exist — `_add_to_history` is dead code nested inside `_generate_data` after
its `return` — so Python raises `NameError` after the optimizer mutations
have already been applied in place. -/
def nameErrorMsg : String :=
  "NameError: name _add_to_history is not defined"

/-- Embeds `__update_spsa_data`: returns the run state after the call together with
`some exc` when the call raises `exc` to the caller (in-place mutations made
before the raise are kept, as in Python). The three guarded failure modes
(missing ephemeral state, checksum mismatch, `N ≤ 0`) log and return
normally; the success path applies the updates and then raises `NameError`
(see `nameErrorMsg`). -/
noncomputable def update_spsa_data (st : RunState) (res : SpsaResults) :
    RunState × Option String :=
  match st.task.spsa_params with
  | none => (st, none)
  | some tsp =>
    let st := { st with task := { st.task with spsa_params := none } }
    if res.sig ≠ crc32 tsp.packed_flips then (st, none)
    else
      let nparams := st.spsa.params.length
      let flips := _unpack_flips (bitsOfBytes tsp.packed_flips) nparams
      let w_params := _generate_data st.spsa tsp.iter flips
      let result : Int := (res.wins : Int) - (res.losses : Int)
      let N : Nat := res.num_games / 2
      if N = 0 then (st, none)
      else
        let spsa := { st.spsa with iter := st.spsa.iter + N }
        let lr := spsa.sf_lr
        let beta1 := spsa.sf_beta1
        let beta2 := spsa.sf_beta2
        let eps := spsa.sf_eps
        let micro_steps := spsa.iter
        let sw := _sf_weighting spsa N lr
        let spsa := sw.1
        let a_k := sw.2.2.2
        let g2_mean := _mu2_hat spsa.mu2
        let updated : List (SPSAParam × ℝ) := (spsa.params.zip w_params).map (fun pw =>
          if pw.1.hasZ = false then
            _classic_param_update pw.1 pw.2.c pw.2.R pw.2.flip result
          else
            _schedule_free_adam_param_update pw.1 pw.2.c pw.2.flip result N
              lr beta1 beta2 eps micro_steps a_k g2_mean)
        let spsa := { spsa with params := updated.map Prod.fst }
        let spsa := { spsa with mu2 := _mu2_update spsa.mu2 N (result : ℝ) }
        ({ st with spsa := spsa }, some nameErrorMsg)

/-! ### Schedule-free SGD simulation (`simul/bias_sf_sgd.py`)

The simulation uses only field operations, so it is modelled over `ℚ`;
exact equality over `ℚ` is stronger than the spec's `1e-12` tolerance. -/

/-- Embeds `GlobalState` of the simulation (`iter_pairs` and `sf_weight_sum`). -/
structure SgdGlobal where
  iter_pairs : Nat
  sf_weight_sum : ℚ

/-- Embeds `ParamState` of the simulation. -/
structure SgdParam where
  theta : ℚ
  z : ℚ
  c : ℚ
  beta1 : ℚ

/-- The `Update` record returned by both paths. -/
structure SgdUpdate where
  x : ℚ
  z : ℚ
  theta : ℚ

/-- Embeds `reconstruct_x_prev` (unclamped, never called with `beta1 = 0`). -/
def reconstruct_x_prev (theta_prev z_prev beta1 : ℚ) : ℚ :=
  (theta_prev - (1 - beta1) * z_prev) / beta1

/-- Embeds `sf_weighting_update`: add `lr·N` to the mass and return `a_k`. -/
def sf_weighting_update (glob : SgdGlobal) (N : Nat) (lr : ℚ) : SgdGlobal × ℚ :=
  let report_weight := lr * N
  let ws := glob.sf_weight_sum + report_weight
  ({ glob with sf_weight_sum := ws },
   if ws > 0 then report_weight / ws else 1)

/-- Embeds `macro_update_sgd`: the closed-form batched update for one report.
The source takes the outcome list and uses only its length `N` and sum
`result`; those two are the arguments here. Returns the advanced global
state and the `(x, z, theta)` update. -/
def macro_update_sgd (glob : SgdGlobal) (param : SgdParam) (N : Nat)
    (result : ℚ) (lr : ℚ) : SgdGlobal × SgdUpdate :=
  let glob := { glob with iter_pairs := glob.iter_pairs + N }
  let weight_sum_prev := glob.sf_weight_sum
  let report_weight := lr * N
  let glob := { glob with sf_weight_sum := glob.sf_weight_sum + report_weight }
  let weight_sum_curr := glob.sf_weight_sum
  let z_prev := param.z
  let delta_total := lr * param.c * result
  let z_new := z_prev + delta_total
  let x_new :=
    if param.beta1 = 0 then z_new
    else
      let x_prev := reconstruct_x_prev param.theta z_prev param.beta1
      let tri_factor := ((N : ℚ) + 1) / 2
      (weight_sum_prev * x_prev + report_weight * z_prev
        + lr * delta_total * tri_factor) / weight_sum_curr
  let theta_new := (1 - param.beta1) * z_new + param.beta1 * x_new
  (glob, { x := x_new, z := z_new, theta := theta_new })

/-- The body of `micro_apply_sequence`'s loop: one unit micro-step on the
local `(glob, z, x)` triple. -/
def micro_step (param0 : SgdParam) (lr : ℚ) (st : SgdGlobal × ℚ × ℚ)
    (num : ℚ) : SgdGlobal × ℚ × ℚ :=
  let glob := { st.1 with iter_pairs := st.1.iter_pairs + 1 }
  let ga := sf_weighting_update glob 1 lr
  let z := st.2.1 + lr * param0.c * num
  let x := if param0.beta1 ≠ 0 then (1 - ga.2) * st.2.2 + ga.2 * z else st.2.2
  (ga.1, z, x)

/-- Embeds `micro_apply_sequence`: apply one unit schedule-free step per entry of
`seq_num` on a scratch copy of the global state, then blend for export. -/
def micro_apply_sequence (glob0 : SgdGlobal) (param0 : SgdParam)
    (seq_num : List ℚ) (lr : ℚ) : SgdUpdate :=
  let z0 := param0.z
  let x0 :=
    if param0.beta1 = 0 then z0
    else reconstruct_x_prev param0.theta z0 param0.beta1
  let fin := seq_num.foldl (micro_step param0 lr) (glob0, z0, x0)
  let z := fin.2.1
  let x := fin.2.2
  { x := x, z := z, theta := (1 - param0.beta1) * z + param0.beta1 * x }

/-! ### Theorems -/

/-- Helper: the if-chain clamp used throughout the handler lands in
`[pmin, pmax]` whenever `pmin ≤ pmax`. -/
theorem ite_clamp_bounds (pmin pmax t : ℝ) (h : pmin ≤ pmax) :
    pmin ≤ (if t < pmin then pmin else if t > pmax then pmax else t) ∧
      (if t < pmin then pmin else if t > pmax then pmax else t) ≤ pmax := by
  split_ifs with h1 h2 <;> constructor <;> linarith

/-- Helper: `_blend_theta_clamped` lands in `[pmin, pmax]`. -/
theorem blend_theta_mem (z x beta1 pmin pmax : ℝ) (h : pmin ≤ pmax) :
    pmin ≤ _blend_theta_clamped z x beta1 pmin pmax ∧
      _blend_theta_clamped z x beta1 pmin pmax ≤ pmax := by
  unfold _blend_theta_clamped
  exact ite_clamp_bounds pmin pmax _ h

/-- C8: for arbitrary `N > 0`, any `signed_result`, `flip ∈ {+1,-1}` and any
parameter with `min < max` whose `theta` lies in `[min, max]`, the `theta`
produced by the Classic update and by the schedule-free blend, the
reconstructed surrogate of `_reconstruct_x_prev_clamped`, and the blended
`x_new` of `_adam_x_new_clamped` all lie in `[min, max]`. -/
theorem C8_theta_and_x_in_bounds (p : SPSAParam) (hmm : p.pmin < p.pmax)
    (hth : p.pmin ≤ p.theta ∧ p.theta ≤ p.pmax)
    (c R : ℝ) (flip result : Int) (hflip : flip = 1 ∨ flip = -1)
    (N : Nat) (hN : 0 < N) (lr beta1 beta2 eps : ℝ) (micro_steps : Nat)
    (a_k g2_mean z_new x_prev : ℝ) :
    (p.pmin ≤ (_classic_param_update p c R flip result).1.theta ∧
      (_classic_param_update p c R flip result).1.theta ≤ p.pmax) ∧
    (p.pmin ≤ _blend_theta_clamped z_new x_prev beta1 p.pmin p.pmax ∧
      _blend_theta_clamped z_new x_prev beta1 p.pmin p.pmax ≤ p.pmax) ∧
    (∀ xr : ℝ,
      _reconstruct_x_prev_clamped p.theta p.z beta1 p.pmin p.pmax = some xr →
      p.pmin ≤ xr ∧ xr ≤ p.pmax) ∧
    (p.pmin ≤ _adam_x_new_clamped a_k x_prev z_new p.pmin p.pmax ∧
      _adam_x_new_clamped a_k x_prev z_new p.pmin p.pmax ≤ p.pmax) ∧
    (p.pmin ≤
        (_schedule_free_adam_param_update p c flip result N lr beta1 beta2
          eps micro_steps a_k g2_mean).1.theta ∧
      (_schedule_free_adam_param_update p c flip result N lr beta1 beta2
          eps micro_steps a_k g2_mean).1.theta ≤ p.pmax) := by
  have h : p.pmin ≤ p.pmax := le_of_lt hmm
  refine ⟨?_, blend_theta_mem _ _ _ _ _ h, ?_, ?_, ?_⟩
  · unfold _classic_param_update
    constructor
    · exact le_min (le_max_right _ _) h
    · exact min_le_right _ _
  · intro xr hxr
    unfold _reconstruct_x_prev_clamped at hxr
    by_cases hb : beta1 = 0
    · rw [if_pos hb] at hxr
      exact absurd hxr (by simp)
    · rw [if_neg hb, Option.some_inj] at hxr
      rw [← hxr]
      exact ite_clamp_bounds _ _ _ h
  · unfold _adam_x_new_clamped
    exact ite_clamp_bounds _ _ _ h
  · unfold _schedule_free_adam_param_update
    split_ifs with hb <;> exact blend_theta_mem _ _ _ _ _ h

/-- C8 witness at concrete inputs. -/
theorem C8_theta_and_x_in_bounds_witness :
    ((0 : ℝ) < 1 ∧ ((0:ℝ) ≤ 0 ∧ (0:ℝ) ≤ 1) ∧ ((1 : Int) = 1 ∨ (1 : Int) = -1) ∧
      0 < 1) ∧
    ((0 : ℝ) ≤ (_classic_param_update
        { theta := 0, z := 0, v := 0, pmin := 0, pmax := 1, c := 1, a := 1,
          hasZ := false } 1 1 1 1).1.theta ∧
      (_classic_param_update
        { theta := 0, z := 0, v := 0, pmin := 0, pmax := 1, c := 1, a := 1,
          hasZ := false } 1 1 1 1).1.theta ≤ 1) := by
  have hm : ((0:ℝ) ≤ 0 ∧ (0:ℝ) ≤ 1) := by norm_num
  refine ⟨⟨by norm_num, hm, Or.inl rfl, Nat.one_pos⟩, ?_⟩
  exact (C8_theta_and_x_in_bounds
    { theta := 0, z := 0, v := 0, pmin := 0, pmax := 1, c := 1, a := 1,
      hasZ := false }
    (by norm_num) hm 1 1 1 1 (Or.inl rfl) 1 Nat.one_pos 1 1 1 1 1 1 1 1 1).1

/-- Helper: the final clamp of the damping factor lands in `(0, 1]`. -/
theorem clampK_mem (k : ℝ) :
    0 < (if 0 < k ∧ k ≤ 1 then k else if k > 1 then (1 : ℝ) else 1 / 10 ^ 6) ∧
      (if 0 < k ∧ k ≤ 1 then k else if k > 1 then (1 : ℝ) else 1 / 10 ^ 6) ≤ 1 := by
  split_ifs with h1 h2 <;> constructor <;>
    first | exact h1.1 | exact h1.2 | norm_num

/-- Helper: the clamped damping factor is in `(0, 1]` unconditionally. -/
theorem adam_k_mem (N : Nat) (beta2 : ℝ) :
    0 < _adam_k N beta2 ∧ _adam_k N beta2 ≤ 1 := by
  simp only [_adam_k]
  exact clampK_mem _

/-- Helper: a step scaled by a factor in `(0, 1]` keeps its magnitude bound. -/
theorem abs_scaled_step_le (x c denom k : ℝ) (hd : 0 < denom) (hk0 : 0 < k)
    (hk1 : k ≤ 1) : |x / denom * k * c| ≤ |x * c| / denom := by
  rw [abs_mul, abs_mul, abs_div, abs_of_pos hd, abs_of_pos hk0, abs_mul]
  rw [div_mul_eq_mul_div, div_mul_eq_mul_div]
  have h1 : |x| * k * |c| ≤ |x| * |c| := by
    nlinarith [mul_nonneg (mul_nonneg (abs_nonneg x) (abs_nonneg c))
      (sub_nonneg.mpr hk1)]
  exact (div_le_div_iff_of_pos_right hd).mpr h1

/-- C10: for every `N > 1` and `0 < beta2 < 1`, the intra-block damping
factor actually multiplied into the Adam step lies in `(0, 1]` (the computed
closed form or series fallback is replaced by `1` when it exceeds `1` and by
`1e-6` when not strictly positive), so the per-report fast-iterate move
`|delta_total_step| = |z_new - z_prev|` never exceeds
`|lr * signed_result * c| / denom`. -/
theorem C10_damping_factor_bounds (N : Nat) (beta2 lr c result flip denom : ℝ)
    (hN : 1 < N) (hb0 : 0 < beta2) (hb1 : beta2 < 1) (hd : 0 < denom)
    (hflip : flip = 1 ∨ flip = -1) :
    0 < _adam_k N beta2 ∧ _adam_k N beta2 ≤ 1 ∧
      |_adam_delta_total_step lr c result flip denom N beta2| ≤
        |lr * result * c| / denom := by
  obtain ⟨hk0, hk1⟩ := adam_k_mem N beta2
  refine ⟨hk0, hk1, ?_⟩
  simp only [_adam_delta_total_step]
  rw [if_pos ⟨hN, hb0, hb1⟩]
  calc |lr * result * flip / denom * _adam_k N beta2 * c|
      ≤ |lr * result * flip * c| / denom :=
        abs_scaled_step_le _ _ _ _ hd hk0 hk1
    _ = |lr * result * c| / denom := by
        rcases hflip with h | h <;> rw [h]
        · ring_nf
        · have : lr * result * (-1) * c = -(lr * result * c) := by ring
          rw [this, abs_neg]

/-- C10 witness at `N = 2`, `beta2 = 1/2`, `denom = 1`, `flip = 1`. -/
theorem C10_damping_factor_bounds_witness :
    (1 < 2 ∧ (0:ℝ) < 1/2 ∧ (1/2:ℝ) < 1 ∧ (0:ℝ) < 1 ∧
      ((1:ℝ) = 1 ∨ (1:ℝ) = -1)) ∧
    (0 < _adam_k 2 (1/2) ∧ _adam_k 2 (1/2) ≤ 1 ∧
      |_adam_delta_total_step 1 1 1 1 1 2 (1/2)| ≤ |(1:ℝ) * 1 * 1| / 1) :=
  ⟨⟨by norm_num, by norm_num, by norm_num, by norm_num, Or.inl rfl⟩,
   C10_damping_factor_bounds 2 (1/2) 1 1 1 1 1 (by norm_num) (by norm_num)
     (by norm_num) (by norm_num) (Or.inl rfl)⟩

/-- Helper: decoding the encoded bit of a ±1 entry gives the entry back. -/
theorem decode_encode_map (v : List Int) (hv : ∀ x ∈ v, x = 1 ∨ x = -1) :
    (v.map (fun f => f == 1)).map (fun b => if b then (1 : Int) else -1) = v := by
  induction v with
  | nil => rfl
  | cons a t ih =>
    simp only [List.map_cons, List.cons.injEq]
    constructor
    · rcases hv a (by simp) with h | h <;> rw [h] <;> rfl
    · exact ih (fun x hx => hv x (by simp [hx]))

/-- C5: for every finite ±1 sequence `v`, unpacking the packed bits with the
original length recovers `v`; the empty sequence packs to the empty byte
string and unpacks to the empty sequence. -/
theorem C5_pack_unpack_roundtrip (v : List Int)
    (hv : ∀ x ∈ v, x = 1 ∨ x = -1) :
    _unpack_flips (_pack_flips v) v.length = v ∧
    _pack_flips [] = [] ∧ _unpack_flips (_pack_flips []) 0 = [] := by
  refine ⟨?_, rfl, rfl⟩
  by_cases h : v = []
  · subst h; rfl
  · unfold _pack_flips _unpack_flips
    rw [if_neg h]
    have hne : (v.map (fun f => f == 1)) ++
        List.replicate (padLen v.length) false ≠ [] := by
      simp [h]
    rw [if_neg hne, List.map_append]
    have hlen : ((v.map (fun f => f == 1)).map
        (fun b => if b then (1 : Int) else -1)).length = v.length := by
      simp
    rw [List.take_append_of_le_length (le_of_eq hlen.symm)]
    rw [← hlen, List.take_length]
    exact decode_encode_map v hv

/-- C5 witness at `v = [1, -1, 1]`. -/
theorem C5_pack_unpack_roundtrip_witness :
    (∀ x ∈ ([1, -1, 1] : List Int), x = 1 ∨ x = -1) ∧
    (_unpack_flips (_pack_flips [1, -1, 1]) 3 = [1, -1, 1] ∧
      _pack_flips [] = [] ∧ _unpack_flips (_pack_flips []) 0 = []) :=
  ⟨by decide, C5_pack_unpack_roundtrip [1, -1, 1] (by decide)⟩

/-- Helper: the non-negative part written as an if-chain equals `max 0`. -/
theorem ite_neg_zero_eq_max (a : ℚ) : (if a < 0 then (0 : ℚ) else a) = max 0 a := by
  split_ifs with h
  · exact (max_eq_left (le_of_lt h)).symm
  · exact (max_eq_right (not_lt.mp h)).symm

/-- Helper: the two-sided clamp written as an if-chain equals `max lo (min hi ·)`. -/
theorem ite_clamp_eq_max_min (lo hi X : ℚ) (h : lo ≤ hi) :
    (if X < lo then lo else if X > hi then hi else X) = max lo (min hi X) := by
  split_ifs with h1 h2
  · rw [min_eq_right (le_of_lt (lt_of_lt_of_le h1 h)), max_eq_left (le_of_lt h1)]
  · rw [min_eq_left (le_of_lt h2), max_eq_right h]
  · rw [min_eq_right (not_lt.mp h2), max_eq_right (not_lt.mp h1)]

/-- C6: the estimate operation returns the prior `mu2_init` when
`report_count = 0`, and with reports and games present it returns
`clamp(mean² + variance, 1e-12, 4)` with `mean = sum_s / sum_N` and
`variance = max 0 (E[s²/N] − mean²·E[N])`; concretely, with `mu2_init = 1`
the first estimate is `1`, and after updates `(N=10, s=2)` and
`(N=20, s=-1)` the estimate lies in `[1e-12, 4]`. -/
theorem C6_mu2_estimator (m : Mu2Acc ℚ) :
    (m.mu2_reports = 0 → _mu2_hat m = m.mu2_init) ∧
    (0 < m.mu2_reports → 0 < m.mu2_sum_N →
      _mu2_hat m =
        max (1 / 10 ^ 12) (min 4
          ((m.mu2_sum_s / m.mu2_sum_N) ^ 2 +
            max 0 (m.mu2_sum_s2_over_N / m.mu2_reports -
              (m.mu2_sum_s / m.mu2_sum_N) ^ 2 *
                (m.mu2_sum_N / m.mu2_reports))))) ∧
    (_mu2_hat (⟨0, 0, 0, 0, 1⟩ : Mu2Acc ℚ) = 1 ∧
      1 / 10 ^ 12 ≤
        _mu2_hat (_mu2_update (_mu2_update (⟨0, 0, 0, 0, 1⟩ : Mu2Acc ℚ) 10 2) 20 (-1)) ∧
      _mu2_hat (_mu2_update (_mu2_update (⟨0, 0, 0, 0, 1⟩ : Mu2Acc ℚ) 10 2) 20 (-1)) ≤ 4) := by
  refine ⟨?_, ?_, ?_, ?_, ?_⟩
  · intro h
    unfold _mu2_hat
    rw [if_pos (le_of_eq h)]
  · intro h1 h2
    unfold _mu2_hat
    rw [if_neg (not_le.mpr h1), if_neg (not_le.mpr h2)]
    simp only [pow_two]
    rw [ite_neg_zero_eq_max, ite_clamp_eq_max_min _ _ _ (by norm_num)]
  · norm_num [_mu2_hat]
  · norm_num [_mu2_hat, _mu2_update]
  · norm_num [_mu2_hat, _mu2_update]

/-- C6 witness: the prior branch at a state with `report_count = 0`, and the
formula branch at a one-report state. -/
theorem C6_mu2_estimator_witness :
    _mu2_hat (⟨0, 5, 3, 2, 7⟩ : Mu2Acc ℚ) = 7 ∧
    _mu2_hat (⟨1, 10, 2, 2 / 5, 1⟩ : Mu2Acc ℚ) =
      max (1 / 10 ^ 12) (min 4
        (((2 : ℚ) / 10) ^ 2 + max 0 ((2 : ℚ) / 5 / 1 -
          ((2 : ℚ) / 10) ^ 2 * (10 / 1)))) :=
  ⟨(C6_mu2_estimator _).1 rfl,
   (C6_mu2_estimator _).2.1 (by norm_num) (by norm_num)⟩

/-- C4: a schedule-free parameter with `min = -100`, `max = 100`,
`theta = z = 0` and blend weight `beta1 = 0`, with `lr = 0.1`, `c = 0.5`,
processing one report with `N = 10`, `signed_result = 4` (flip `+1`,
`beta2 = 0`, `eps = 0`, `v = 0`, pre-block `mu2 = 1`, so the Adam
normalizer is exactly `1`) yields exactly `z = theta = 0.1·0.5·4 = 0.2`. -/
theorem C4_scenario_A :
    (_schedule_free_adam_param_update
        { theta := 0, z := 0, v := 0, pmin := -100, pmax := 100, c := 1 / 2,
          a := 0, hasZ := true }
        (1 / 2) 1 4 10 (1 / 10) 0 0 0 10 1 1).1.z = (1 / 10) * (1 / 2) * 4 ∧
    (_schedule_free_adam_param_update
        { theta := 0, z := 0, v := 0, pmin := -100, pmax := 100, c := 1 / 2,
          a := 0, hasZ := true }
        (1 / 2) 1 4 10 (1 / 10) 0 0 0 10 1 1).1.theta =
      (1 / 10) * (1 / 2) * 4 := by
  have hz : (_schedule_free_adam_param_update
      { theta := 0, z := 0, v := 0, pmin := -100, pmax := 100, c := 1 / 2,
        a := 0, hasZ := true }
      (1 / 2) 1 4 10 (1 / 10) 0 0 0 10 1 1).1.z = (1 / 10) * (1 / 2) * 4 := by
    norm_num [_schedule_free_adam_param_update, _adam_update_v_and_denom,
      _adam_delta_total_step, Real.sqrt_one]
  refine ⟨hz, ?_⟩
  norm_num [_schedule_free_adam_param_update, _adam_update_v_and_denom,
    _adam_delta_total_step, _blend_theta_clamped, Real.sqrt_one]

/-- Follows the spec's words (refinement comparison only): the spec states
the Classic perturbation magnitude as `c = c_end * iteration_local^gamma`. -/
noncomputable def spec_classic_c (c_end gamma : ℝ) (iter_local : Nat) : ℝ :=
  c_end * ((iter_local : ℝ) ^ gamma)

/-- Concrete Classic-schedule parameter (from `c_end = 1`, `r_end = 1`,
`num_iter = 2`, `gamma = alpha = A = 1`), as `parse_spsa_params` builds it. -/
noncomputable def exampleClassicParam : SPSAParam :=
  { theta := 0, z := 0, v := 0, pmin := -10, pmax := 10,
    c := parse_c 1 2 1, a := parse_a 1 1 1 2 1, hasZ := false }

/-- Concrete Classic-schedule run configuration around `exampleClassicParam`. -/
noncomputable def exampleClassicSpsa : SpsaState :=
  { iter := 0, sf_weight_sum := 0, sf_lr := 1 / 10, sf_beta1 := 0,
    sf_beta2 := 0, sf_eps := 0, mu2 := ⟨0, 0, 0, 0, 1⟩,
    gamma := some 1, alpha := some 1, A := some 1,
    params := [exampleClassicParam] }

/-- C3 counterexample: at `c_end = 1`, `num_iter = 2`, `gamma = 1` and
counter `0` (so `iteration_local = 1`), the generator produces `c = 2`
(namely `param["c"] / iteration_local^gamma` with
`param["c"] = c_end * num_iter^gamma`), while the claim's formula
`c_end * iteration_local^gamma` gives `1`. -/
theorem C3_counterexample :
    (_generate_data exampleClassicSpsa 0 [1]).map (fun w => w.c) ≠
      [spec_classic_c 1 1 1] := by
  have h : (_generate_data exampleClassicSpsa 0 [1]).map (fun w => w.c) =
      [parse_c 1 2 1 / ((1 : ℝ) ^ (1 : ℝ))] := by
    simp [_generate_data, exampleClassicSpsa, genC, exampleClassicParam]
  rw [h]
  simp only [spec_classic_c, parse_c, Real.rpow_one, ne_eq, List.cons.injEq,
    and_true]
  norm_num

/-- C3 amended: for a Classic run (`gamma`, `alpha`, `A` present) whose
parameter was parsed from `(c_end, r_end, num_iter)`, the generator yields
`c = c_end * (num_iter / iteration_local)^gamma` (with
`iteration_local = counter + 1`) and `R = a / (A + iteration_local)^alpha / c²`
where `a` is the parsed gain numerator; schedule-free runs (no `gamma`)
get the parameter's fixed `c` unchanged. -/
theorem C3_amended_generate_magnitudes (spsa : SpsaState) (p : SPSAParam)
    (c_end r_end A gamma alpha : ℝ) (num_iter counter : Nat)
    (hg : spsa.gamma = some gamma) (ha : spsa.alpha = some alpha)
    (hA : spsa.A = some A)
    (hc : p.c = parse_c c_end num_iter gamma)
    (hpa : p.a = parse_a r_end c_end A num_iter alpha) :
    genC spsa p (counter + 1) =
      c_end * (((num_iter : ℝ) / (((counter + 1 : Nat) : ℝ))) ^ gamma) ∧
    genR spsa p (genC spsa p (counter + 1)) (counter + 1) =
      parse_a r_end c_end A num_iter alpha /
        ((A + ((counter + 1 : Nat) : ℝ)) ^ alpha) /
        (genC spsa p (counter + 1)) ^ 2 ∧
    (∀ (spsa2 : SpsaState) (p2 : SPSAParam) (j : Nat), spsa2.gamma = none →
      genC spsa2 p2 j = p2.c) := by
  refine ⟨?_, ?_, ?_⟩
  · unfold genC
    rw [hg]
    dsimp only
    rw [hc]
    unfold parse_c
    rw [Real.div_rpow (Nat.cast_nonneg num_iter) (Nat.cast_nonneg (counter + 1))]
    rw [mul_div_assoc]
  · unfold genR
    rw [ha, hA]
    dsimp only
    rw [hpa]
  · intro spsa2 p2 j h
    unfold genC
    rw [h]

/-- C3 amended witness at the `exampleClassicSpsa` configuration. -/
theorem C3_amended_generate_magnitudes_witness :
    (exampleClassicSpsa.gamma = some 1 ∧ exampleClassicSpsa.alpha = some 1 ∧
      exampleClassicSpsa.A = some 1 ∧
      exampleClassicParam.c = parse_c 1 2 1 ∧
      exampleClassicParam.a = parse_a 1 1 1 2 1) ∧
    (genC exampleClassicSpsa exampleClassicParam (0 + 1) =
        1 * ((((2 : Nat) : ℝ) / (((0 + 1 : Nat) : ℝ))) ^ (1 : ℝ)) ∧
      genR exampleClassicSpsa exampleClassicParam
          (genC exampleClassicSpsa exampleClassicParam (0 + 1)) (0 + 1) =
        parse_a 1 1 1 2 1 / (((1 : ℝ) + ((0 + 1 : Nat) : ℝ)) ^ (1 : ℝ)) /
          (genC exampleClassicSpsa exampleClassicParam (0 + 1)) ^ 2 ∧
      (∀ (spsa2 : SpsaState) (p2 : SPSAParam) (j : Nat), spsa2.gamma = none →
        genC spsa2 p2 j = p2.c)) :=
  ⟨⟨rfl, rfl, rfl, rfl, rfl⟩,
   C3_amended_generate_magnitudes exampleClassicSpsa exampleClassicParam
     1 1 1 1 1 2 0 rfl rfl rfl rfl rfl⟩

/-- C7: once the ephemeral `spsa_params` state has been consumed (deleted),
replaying an identical report is a no-op: the second call raises nothing and
changes none of `theta`, `z`, `v`, the iteration counter, or
`sf_weight_sum`. -/
theorem C7_duplicate_report_noop (st : RunState) (res : SpsaResults)
    (h : st.task.spsa_params = none) :
    update_spsa_data st res = (st, none) ∧
    (update_spsa_data st res).1.spsa.params = st.spsa.params ∧
    (update_spsa_data st res).1.spsa.iter = st.spsa.iter ∧
    (update_spsa_data st res).1.spsa.sf_weight_sum = st.spsa.sf_weight_sum := by
  have heq : update_spsa_data st res = (st, none) := by
    unfold update_spsa_data
    rw [h]
  exact ⟨heq, by rw [heq], by rw [heq], by rw [heq]⟩

/-- Concrete schedule-free parameter for the coordinator scenarios. -/
noncomputable def exampleParam : SPSAParam :=
  { theta := 0, z := 0, v := 0, pmin := -100, pmax := 100, c := 1 / 2,
    a := 0, hasZ := true }

/-- Concrete schedule-free run `spsa` dict (one parameter, no legacy keys). -/
noncomputable def exampleSpsa : SpsaState :=
  { iter := 0, sf_weight_sum := 0, sf_lr := 1 / 10, sf_beta1 := 0,
    sf_beta2 := 0, sf_eps := 0, mu2 := ⟨0, 0, 0, 0, 1⟩,
    gamma := none, alpha := none, A := none, params := [exampleParam] }

/-- Concrete run with an active task carrying issued ephemeral state for one
parameter with flip `+1`. -/
noncomputable def exampleRun : RunState :=
  { task := { active := true,
              spsa_params := some ⟨0, bytesOfBits (_pack_flips [1])⟩ },
    spsa := exampleSpsa, num_games := 20 }

/-- Concrete valid report for `exampleRun`: 20 games, `wins - losses = 4`,
and the matching checksum. -/
noncomputable def exampleReport : SpsaResults :=
  { wins := 7, losses := 3, num_games := 20,
    sig := crc32 (bytesOfBits (_pack_flips [1])) }

/-- C7 witness: replaying against a run whose ephemeral state is consumed. -/
theorem C7_duplicate_report_noop_witness :
    ({ exampleRun with
        task := { active := true, spsa_params := none } } :
          RunState).task.spsa_params = none ∧
    update_spsa_data
        { exampleRun with task := { active := true, spsa_params := none } }
        exampleReport =
      ({ exampleRun with task := { active := true, spsa_params := none } },
        none) :=
  ⟨rfl,
   (C7_duplicate_report_noop
     { exampleRun with task := { active := true, spsa_params := none } }
     exampleReport rfl).1⟩

/-- C9: `request_spsa_data` returns `task_alive = false` with no mutation at
all when the task is inactive; when active it stores exactly the issuance
counter and the packed flips on the task (the `active` flag and `num_games`
are untouched) and returns the generated perturbation with its checksum,
leaving the whole run-level `spsa` dict — `iter`, `sf_weight_sum` and every
parameter's `theta`/`z`/`v` — unchanged in both cases. -/
theorem C9_request_frame (st : RunState) (flips : List Int) :
    (st.task.active = false →
      request_spsa_data st flips =
        (st, { w_params := [], sig := 0, task_alive := false })) ∧
    (st.task.active = true →
      (request_spsa_data st flips).1.spsa = st.spsa ∧
      (request_spsa_data st flips).1.num_games = st.num_games ∧
      (request_spsa_data st flips).1.task.active = st.task.active ∧
      (request_spsa_data st flips).1.task.spsa_params =
        some ⟨st.spsa.iter,
          bytesOfBits (_pack_flips
            ((_generate_data st.spsa st.spsa.iter flips).map
              (fun w => w.flip)))⟩ ∧
      (request_spsa_data st flips).2.task_alive = true ∧
      (request_spsa_data st flips).2.w_params =
        _generate_data st.spsa st.spsa.iter flips ∧
      (request_spsa_data st flips).2.sig =
        crc32 (bytesOfBits (_pack_flips
          ((_generate_data st.spsa st.spsa.iter flips).map
            (fun w => w.flip))))) := by
  constructor
  · intro h
    unfold request_spsa_data
    rw [if_pos h]
  · intro h
    have hne : ¬ st.task.active = false := by rw [h]; simp
    unfold request_spsa_data
    rw [if_neg hne]
    exact ⟨rfl, rfl, h.symm ▸ rfl, rfl, rfl, rfl, rfl⟩

/-- C9 witness: the active branch at `exampleRun` with flip list `[1]`. -/
theorem C9_request_frame_witness :
    exampleRun.task.active = true ∧
    (request_spsa_data exampleRun [1]).1.spsa = exampleRun.spsa ∧
    (request_spsa_data exampleRun [1]).2.task_alive = true :=
  have h := (C9_request_frame exampleRun [1]).2 rfl
  ⟨rfl, h.1, h.2.2.2.2.1⟩

/-- Helper: a report with no ephemeral state is a pure no-op. -/
theorem update_no_ephemeral (st : RunState) (res : SpsaResults)
    (h : st.task.spsa_params = none) : update_spsa_data st res = (st, none) := by
  unfold update_spsa_data
  rw [h]

/-- Helper: a checksum mismatch only consumes the ephemeral state. -/
theorem update_sig_mismatch (st : RunState) (res : SpsaResults)
    (tsp : TaskSpsaParams) (h1 : st.task.spsa_params = some tsp)
    (h2 : res.sig ≠ crc32 tsp.packed_flips) :
    update_spsa_data st res =
      ({ st with task := { st.task with spsa_params := none } }, none) := by
  unfold update_spsa_data
  rw [h1]
  dsimp only
  rw [if_pos h2]

/-- Helper: a report with `N = num_games // 2 = 0` only consumes the
ephemeral state. -/
theorem update_N_zero (st : RunState) (res : SpsaResults)
    (tsp : TaskSpsaParams) (h1 : st.task.spsa_params = some tsp)
    (h2 : res.sig = crc32 tsp.packed_flips) (h3 : res.num_games / 2 = 0) :
    update_spsa_data st res =
      ({ st with task := { st.task with spsa_params := none } }, none) := by
  unfold update_spsa_data
  rw [h1]
  dsimp only
  rw [if_neg (by simp [h2]), if_pos h3]

/-- Helper: a valid report (matching checksum, positive batch) reaches the
call of the undefined module-level name `_add_to_history` and raises. -/
theorem update_success_raises (st : RunState) (res : SpsaResults)
    (tsp : TaskSpsaParams) (h1 : st.task.spsa_params = some tsp)
    (h2 : res.sig = crc32 tsp.packed_flips) (h3 : ¬ res.num_games / 2 = 0) :
    (update_spsa_data st res).2 = some nameErrorMsg := by
  unfold update_spsa_data
  rw [h1]
  dsimp only
  rw [if_neg (by simp [h2]), if_neg h3]

/-- C1: the three guarded failure modes (missing ephemeral state, checksum
mismatch, non-positive batch) return normally and leave the run optimizer
state (`spsa`) untouched — but the success path does NOT return normally:
at the concrete valid report it raises `NameError`, because the module-level
call `_add_to_history(...)` refers to a function that exists only as dead
code nested inside `_generate_data` after its `return`. -/
theorem C1_report_error_handling :
    (update_spsa_data exampleRun exampleReport).2 = some nameErrorMsg ∧
    update_spsa_data
        { exampleRun with task := { active := true, spsa_params := none } }
        exampleReport =
      ({ exampleRun with task := { active := true, spsa_params := none } },
        none) ∧
    update_spsa_data exampleRun
        { exampleReport with sig := exampleReport.sig + 1 } =
      ({ exampleRun with task := { active := true, spsa_params := none } },
        none) ∧
    update_spsa_data exampleRun { exampleReport with num_games := 1 } =
      ({ exampleRun with task := { active := true, spsa_params := none } },
        none) := by
  refine ⟨?_, ?_, ?_, ?_⟩
  · exact update_success_raises exampleRun exampleReport
      ⟨0, bytesOfBits (_pack_flips [1])⟩ rfl rfl (by norm_num [exampleReport])
  · exact update_no_ephemeral _ _ rfl
  · exact update_sig_mismatch _ _ ⟨0, bytesOfBits (_pack_flips [1])⟩ rfl
      (by simp [exampleReport])
  · exact update_N_zero _ _ ⟨0, bytesOfBits (_pack_flips [1])⟩ rfl rfl rfl

/-- Helper: closed form of the mass and fast iterate after `j` identical
micro-steps. -/
theorem micro_loop_W_z (param0 : SgdParam) (lr s : ℚ) (g0 : SgdGlobal)
    (z0 x0 : ℚ) (j : Nat) :
    ((List.replicate j s).foldl (micro_step param0 lr)
        (g0, z0, x0)).1.sf_weight_sum = g0.sf_weight_sum + j * lr ∧
    ((List.replicate j s).foldl (micro_step param0 lr)
        (g0, z0, x0)).2.1 = z0 + j * (lr * param0.c * s) := by
  induction j with
  | zero => simp
  | succ n ih =>
    rw [List.replicate_succ', List.foldl_append]
    obtain ⟨ihW, ihz⟩ := ih
    constructor
    · simp only [List.foldl_cons, List.foldl_nil, micro_step,
        sf_weighting_update, ihW]
      push_cast
      ring
    · simp only [List.foldl_cons, List.foldl_nil, micro_step, ihz]
      push_cast
      ring

/-- Helper: mass-weighted invariant of the surrogate after `j` identical
micro-steps (blend branch, positive mass throughout). -/
theorem micro_loop_x (param0 : SgdParam) (lr s : ℚ) (g0 : SgdGlobal)
    (z0 x0 : ℚ) (hlr : 0 < lr) (hW : 0 ≤ g0.sf_weight_sum)
    (hb : param0.beta1 ≠ 0) (j : Nat) :
    ((List.replicate j s).foldl (micro_step param0 lr)
        (g0, z0, x0)).1.sf_weight_sum *
      ((List.replicate j s).foldl (micro_step param0 lr) (g0, z0, x0)).2.2 =
    g0.sf_weight_sum * x0 +
      lr * (j * z0 + (lr * param0.c * s) * (j * (j + 1) / 2)) := by
  induction j with
  | zero => simp
  | succ n ih =>
    obtain ⟨ihW, ihz⟩ := micro_loop_W_z param0 lr s g0 z0 x0 n
    rw [List.replicate_succ', List.foldl_append]
    simp only [List.foldl_cons, List.foldl_nil]
    set fin := (List.replicate n s).foldl (micro_step param0 lr) (g0, z0, x0)
      with hfin
    have hWpos : fin.1.sf_weight_sum + lr > 0 := by
      rw [ihW]
      nlinarith [Nat.cast_nonneg (α := ℚ) n]
    have key : ∀ W X zp : ℚ, W + lr ≠ 0 →
        (W + lr) * ((1 - lr / (W + lr)) * X + lr / (W + lr) * zp) =
          W * X + lr * zp := by
      intro W X zp hW'
      field_simp
    simp only [micro_step, sf_weighting_update, Nat.cast_one, mul_one,
      if_pos hWpos, if_pos hb]
    rw [key _ _ _ (ne_of_gt hWpos), ih, ihz]
    push_cast
    ring

/-- C2: for every initial state with the blend active, every `N ≥ 1` and
every `signed_result`, applying `N` sequential unit schedule-free SGD steps
at the block mean `signed_result/N` gives the same `(z, x, theta)` — within
`1e-12` (here: exactly, in exact arithmetic) — as the single closed-form
batched update with the triangular surrogate factor `(N+1)/2`. -/
theorem C2_sgd_batch_vs_sequence (glob : SgdGlobal) (param : SgdParam)
    (N : Nat) (result lr : ℚ) (hN : 1 ≤ N) (hlr : 0 < lr)
    (hW : 0 ≤ glob.sf_weight_sum) (hb : param.beta1 ≠ 0) :
    |(macro_update_sgd glob param N result lr).2.z -
        (micro_apply_sequence glob param
          (List.replicate N (result / N)) lr).z| ≤ 1 / 10 ^ 12 ∧
    |(macro_update_sgd glob param N result lr).2.x -
        (micro_apply_sequence glob param
          (List.replicate N (result / N)) lr).x| ≤ 1 / 10 ^ 12 ∧
    |(macro_update_sgd glob param N result lr).2.theta -
        (micro_apply_sequence glob param
          (List.replicate N (result / N)) lr).theta| ≤ 1 / 10 ^ 12 := by
  have hN1 : (1 : ℚ) ≤ (N : ℚ) := by exact_mod_cast hN
  have hN0 : (0 : ℚ) < (N : ℚ) := lt_of_lt_of_le one_pos hN1
  have hNne : (N : ℚ) ≠ 0 := ne_of_gt hN0
  set s : ℚ := result / (N : ℚ) with hs
  set x0 : ℚ := reconstruct_x_prev param.theta param.z param.beta1 with hx0
  obtain ⟨hWn, hzn⟩ := micro_loop_W_z param lr s glob param.z x0 N
  have hxn := micro_loop_x param lr s glob param.z x0 hlr hW hb N
  have hWNpos : (0 : ℚ) < glob.sf_weight_sum + N * lr := by nlinarith
  -- the micro components
  have hmz : (micro_apply_sequence glob param (List.replicate N s) lr).z =
      ((List.replicate N s).foldl (micro_step param lr)
        (glob, param.z, x0)).2.1 := by
    simp only [micro_apply_sequence, if_neg hb, hx0]
  have hmx : (micro_apply_sequence glob param (List.replicate N s) lr).x =
      ((List.replicate N s).foldl (micro_step param lr)
        (glob, param.z, x0)).2.2 := by
    simp only [micro_apply_sequence, if_neg hb, hx0]
  have hmth : (micro_apply_sequence glob param (List.replicate N s) lr).theta =
      (1 - param.beta1) *
          ((List.replicate N s).foldl (micro_step param lr)
            (glob, param.z, x0)).2.1 +
        param.beta1 *
          ((List.replicate N s).foldl (micro_step param lr)
            (glob, param.z, x0)).2.2 := by
    simp only [micro_apply_sequence, if_neg hb, hx0]
  have hxmic : ((List.replicate N s).foldl (micro_step param lr)
      (glob, param.z, x0)).2.2 =
      (glob.sf_weight_sum * x0 +
        lr * (N * param.z + (lr * param.c * s) * (N * (N + 1) / 2))) /
        (glob.sf_weight_sum + N * lr) := by
    rw [eq_div_iff (ne_of_gt hWNpos), mul_comm, ← hWn]
    exact hxn
  -- the macro components
  have hmacz : (macro_update_sgd glob param N result lr).2.z =
      param.z + lr * param.c * result := rfl
  have hmacx : (macro_update_sgd glob param N result lr).2.x =
      (glob.sf_weight_sum * x0 + lr * N * param.z +
        lr * (lr * param.c * result) * ((N + 1) / 2)) /
        (glob.sf_weight_sum + lr * N) := by
    simp only [macro_update_sgd, if_neg hb, hx0]
  have hmacth : (macro_update_sgd glob param N result lr).2.theta =
      (1 - param.beta1) * (macro_update_sgd glob param N result lr).2.z +
        param.beta1 * (macro_update_sgd glob param N result lr).2.x := rfl
  -- exact equality of the three components
  have hzeq : (macro_update_sgd glob param N result lr).2.z =
      (micro_apply_sequence glob param (List.replicate N s) lr).z := by
    rw [hmacz, hmz, hzn, hs]
    field_simp
  have hxeq : (macro_update_sgd glob param N result lr).2.x =
      (micro_apply_sequence glob param (List.replicate N s) lr).x := by
    rw [hmacx, hmx, hxmic, hs]
    rw [div_eq_div_iff (by nlinarith) (ne_of_gt hWNpos)]
    field_simp
    ring
  have htheq : (macro_update_sgd glob param N result lr).2.theta =
      (micro_apply_sequence glob param (List.replicate N s) lr).theta := by
    rw [hmacth, hmth, hzeq, hxeq, hmz, hmx]
  refine ⟨?_, ?_, ?_⟩
  · rw [hzeq, sub_self, abs_zero]; norm_num
  · rw [hxeq, sub_self, abs_zero]; norm_num
  · rw [htheq, sub_self, abs_zero]; norm_num

/-- C2 witness at `N = 2`, `result = 1`, `lr = 1/10`, `beta1 = 1/2`. -/
theorem C2_sgd_batch_vs_sequence_witness :
    (1 ≤ 2 ∧ (0 : ℚ) < 1 / 10 ∧
      (0 : ℚ) ≤ (SgdGlobal.mk 0 0).sf_weight_sum ∧
      (SgdParam.mk 0 0 (1 / 2) (1 / 2)).beta1 ≠ 0) ∧
    |(macro_update_sgd (SgdGlobal.mk 0 0) (SgdParam.mk 0 0 (1 / 2) (1 / 2))
        2 1 (1 / 10)).2.z -
      (micro_apply_sequence (SgdGlobal.mk 0 0)
        (SgdParam.mk 0 0 (1 / 2) (1 / 2))
        (List.replicate 2 ((1 : ℚ) / (2 : Nat))) (1 / 10)).z| ≤ 1 / 10 ^ 12 :=
  ⟨⟨by norm_num, by norm_num, le_refl 0, by norm_num⟩,
   (C2_sgd_batch_vs_sequence (SgdGlobal.mk 0 0)
     (SgdParam.mk 0 0 (1 / 2) (1 / 2)) 2 1 (1 / 10) (by norm_num)
     (by norm_num) (le_refl 0) (by norm_num)).1⟩
